import Mathlib

/-!
Shallow embedding of `src/encoders/resnet.py` (NLST-Similarity-VAE).

The file wires `torch.nn` modules into a 3-D ResNet encoder.  We embed the
*configuration* of each framework module as a constructor of an inductive
type `NNModule` (recording the hyperparameters the Python code passes), and
each Python class constructor (`__init__`) as a Lean function producing the
object state that constructor builds.  Python exceptions (`KeyError` from
the activation lookup, `IndexError` from indexing an empty list, calling a
`None` shortcut) are modelled by `Option`.

The numerical behaviour of the framework primitives (convolution,
batch-norm, ...) is not part of the repository; `forward` methods are
therefore modelled over an abstract tensor type `T` with an abstract
interpretation `interp : NNModule → T → T` of the leaf modules, plus an
`Add T` instance for the residual addition `x += residual`.
-/

set_option autoImplicit false

/-- Configuration of a `torch.nn` module as constructed by the source file.
`conv3d in_channels out_channels kernel_size stride padding bias` records
`nn.Conv3d(...)`; kernel sizes and paddings are per-dimension triples,
strides are the scalar the source always passes.  `relu`, `leakyRelu`,
`selu`, `identity` are `nn.ReLU(inplace=True)`,
`nn.LeakyReLU(negative_slope=0.01, inplace=True)`, `nn.SELU(inplace=True)`
and `nn.Identity()`.  `sequential` is `nn.Sequential`. -/
inductive NNModule : Type where
  | conv3d (in_channels out_channels : Nat) (kernel_size : Nat × Nat × Nat)
      (stride : Nat) (padding : Nat × Nat × Nat) (bias : Bool)
  | batchNorm3d (num_features : Nat)
  | relu
  | leakyRelu
  | selu
  | identity
  | maxPool3d (kernel_size stride padding : Nat)
  | sequential (children : List NNModule)

/-- Constructor `Conv3dAuto(...)`: calls the `nn.Conv3d` constructor and then overwrites
`self.padding` with `kernel_size[i] // 2` per dimension (the `padding`
argument is therefore discarded). -/
def Conv3dAuto (in_channels out_channels : Nat) (kernel_size : Nat × Nat × Nat)
    (stride : Nat) (padding : Nat × Nat × Nat) (bias : Bool) : NNModule :=
  NNModule.conv3d in_channels out_channels kernel_size stride
    (kernel_size.1 / 2, kernel_size.2.1 / 2, kernel_size.2.2 / 2) bias

/-- Definition `conv3x3 = partial(Conv3dAuto, kernel_size=3, bias=False)`.
Call sites may override `kernel_size` and pass `stride` and `bias`
keywords; the torch defaults are `stride=1`, and `bias=False` comes from
the `partial` binding.  Those call-site keyword values are the explicit
`kernel_size`, `stride`, `bias` arguments here, and the constructor-default
`padding=0` is passed through (then discarded by `Conv3dAuto`). -/
def conv3x3 (in_channels out_channels kernel_size stride : Nat) (bias : Bool) : NNModule :=
  Conv3dAuto in_channels out_channels (kernel_size, kernel_size, kernel_size)
    stride (0, 0, 0) bias

/-- Function `activation_func` builds a four-entry `nn.ModuleDict` and indexes it
with the given name; a missing key raises `KeyError`, modelled by `none`. -/
def activation_func (activation : String) : Option NNModule :=
  List.lookup activation
    [("ReLU", NNModule.relu), ("leaky_ReLU", NNModule.leakyRelu),
     ("SeLU", NNModule.selu), ("none", NNModule.identity)]

/-- Function `conv_bn(in_channels, out_channels, conv, *args, **kwargs)`: a
`Sequential` of `conv(in_channels, out_channels, *args, **kwargs)` and
`nn.BatchNorm3d(out_channels)`.  The extra keywords are pre-applied into
the `conv` argument at each call site. -/
def conv_bn (in_channels out_channels : Nat) (conv : Nat → Nat → NNModule) : NNModule :=
  NNModule.sequential [conv in_channels out_channels, NNModule.batchNorm3d out_channels]

/-- Object state of a fully constructed ResNet residual block
(`ResNetBasicBlock` or `ResNetBottleNeckBlock` instance): the attributes
set by the `ResidualBlock`/`ResNetResidualBlock`/subclass constructors. -/
structure ResNetBlockData : Type where
  in_channels : Nat
  out_channels : Nat
  expansion : Nat
  downsampling : Nat
  activation : String
  activate : NNModule
  blocks : NNModule
  shortcut : Option NNModule

/-- Property `ResNetResidualBlock.expanded_channels = out_channels * expansion`. -/
def ResNetBlockData.expanded_channels (b : ResNetBlockData) : Nat :=
  b.out_channels * b.expansion

/-- Property `ResNetResidualBlock.should_apply_shortcut`: the property that
overrides the base-class one, comparing against `expanded_channels`. -/
def ResNetBlockData.should_apply_shortcut (b : ResNetBlockData) : Bool :=
  b.in_channels != b.expanded_channels

/-- The `shortcut` attribute set by `ResNetResidualBlock.__init__`:
a `Sequential` of a 1x1x1 strided `nn.Conv3d` (bias-free, torch-default
`padding=0`) and a `BatchNorm3d` when `should_apply_shortcut`, else
`None`. -/
def ResNetResidualBlock.mkShortcut (in_channels expanded_channels downsampling : Nat) :
    Option NNModule :=
  if in_channels ≠ expanded_channels then
    some (NNModule.sequential
      [NNModule.conv3d in_channels expanded_channels (1, 1, 1) downsampling (0, 0, 0) false,
       NNModule.batchNorm3d expanded_channels])
  else
    none

/-- Constructor `ResNetBasicBlock(in_channels, out_channels, downsampling=...,
activation=...)`: `expansion = 1`; the superclass constructors resolve the
activation (raising `KeyError` for unknown names, hence `Option`) and build
the shortcut; the subclass then sets `self.blocks` to the two
`conv_bn`/activation stages, the first with `stride=downsampling`, both
via `self.conv = conv3x3` with `bias=False`. -/
def ResNetBasicBlock.make (in_channels out_channels downsampling : Nat)
    (activation : String) : Option ResNetBlockData :=
  match activation_func activation with
  | none => none
  | some act =>
    some
      { in_channels := in_channels
        out_channels := out_channels
        expansion := 1
        downsampling := downsampling
        activation := activation
        activate := act
        shortcut := ResNetResidualBlock.mkShortcut in_channels (out_channels * 1) downsampling
        blocks := NNModule.sequential
          [conv_bn in_channels out_channels (fun i o => conv3x3 i o 3 downsampling false),
           act,
           conv_bn out_channels (out_channels * 1) (fun i o => conv3x3 i o 3 1 false)] }

/-- Constructor `ResNetBottleNeckBlock(in_channels, out_channels, downsampling=...,
activation=...)`: passes `expansion=4` to the superclass, then sets
`self.blocks` to three `conv_bn` stages (kernel sizes 1, 3, 1; the middle
one with `stride=downsampling`) with activations between them; `conv3x3`'s
`partial` binding keeps every convolution bias-free. -/
def ResNetBottleNeckBlock.make (in_channels out_channels downsampling : Nat)
    (activation : String) : Option ResNetBlockData :=
  match activation_func activation with
  | none => none
  | some act =>
    some
      { in_channels := in_channels
        out_channels := out_channels
        expansion := 4
        downsampling := downsampling
        activation := activation
        activate := act
        shortcut := ResNetResidualBlock.mkShortcut in_channels (out_channels * 4) downsampling
        blocks := NNModule.sequential
          [conv_bn in_channels out_channels (fun i o => conv3x3 i o 1 1 false),
           act,
           conv_bn out_channels out_channels (fun i o => conv3x3 i o 3 downsampling false),
           act,
           conv_bn out_channels (out_channels * 4) (fun i o => conv3x3 i o 1 1 false)] }

/-- A block class as passed around by the Python code: its class attribute
`expansion` and its constructor
`(in_channels, out_channels, downsampling, activation) ↦ instance`. -/
structure BlockClass : Type where
  expansion : Nat
  make : Nat → Nat → Nat → String → Option ResNetBlockData

/-- The `ResNetBasicBlock` class object. -/
def ResNetBasicBlock : BlockClass :=
  { expansion := 1, make := ResNetBasicBlock.make }

/-- The `ResNetBottleNeckBlock` class object. -/
def ResNetBottleNeckBlock : BlockClass :=
  { expansion := 4, make := ResNetBottleNeckBlock.make }

/-- Evaluation of the Python list comprehension
`[f(x) for x in xs]` when each `f(x)` may raise (`Option`):
the first failure aborts the whole construction. -/
def optionMapList {α β : Type} (f : α → Option β) : List α → Option (List β)
  | [] => some []
  | x :: xs =>
    match f x, optionMapList f xs with
    | some y, some ys => some (y :: ys)
    | _, _ => none

/-- Constructor `ResNetLayer(in_channels, out_channels, block=..., n=..., activation=...)`:
`downsampling = 2 if in_channels != out_channels else 1`; `self.blocks` is a
`Sequential` of one `block(in_channels, out_channels, downsampling=downsampling)`
followed by `n - 1` copies of
`block(out_channels * block.expansion, out_channels, downsampling=1)`. -/
def ResNetLayer.make (in_channels out_channels : Nat) (block : BlockClass)
    (n : Nat) (activation : String) : Option (List ResNetBlockData) :=
  (block.make in_channels out_channels
      (if in_channels ≠ out_channels then 2 else 1) activation).bind fun first =>
    (optionMapList
        (fun _ => block.make (out_channels * block.expansion) out_channels 1 activation)
        (List.range (n - 1))).bind fun rest =>
      some (first :: rest)

/-- Object state of a constructed `ResNetEncoder`: its `blocks_sizes`
attribute, the `gate` sequential, and the list of `ResNetLayer`s (each the
list of residual blocks its `Sequential` holds). -/
structure ResNetEncoderData : Type where
  blocks_sizes : List Nat
  gate : NNModule
  blocks : List (List ResNetBlockData)

/-- Constructor `ResNetEncoder(in_channels, blocks_sizes, depths, activation, block)`:
builds the gate (7x7x7 stride-2 bias-free convolution to `blocks_sizes[0]`
channels, batch-norm, activation, 3/2/1 max-pool), then one `ResNetLayer`
per entry of `depths`; `in_out_block_sizes = zip(blocks_sizes,
blocks_sizes[1:])`, and each later layer gets
`in_channels * block.expansion → out_channels` from that zip.  Indexing an
empty `blocks_sizes`/`depths` raises `IndexError`, modelled by `none`. -/
def ResNetEncoder.make (in_channels : Nat) (blocks_sizes : List Nat) (depths : List Nat)
    (activation : String) (block : BlockClass) : Option ResNetEncoderData :=
  (activation_func activation).bind fun act =>
    blocks_sizes.head?.bind fun b0 =>
      depths.head?.bind fun d0 =>
        (ResNetLayer.make b0 b0 block d0 activation).bind fun firstLayer =>
          (optionMapList
              (fun p => ResNetLayer.make (p.1.1 * block.expansion) p.1.2 block p.2 activation)
              (List.zip (List.zip blocks_sizes blocks_sizes.tail) depths.tail)).bind
            fun restLayers =>
              some
                { blocks_sizes := blocks_sizes
                  gate := NNModule.sequential
                    [NNModule.conv3d in_channels b0 (7, 7, 7) 2 (3, 3, 3) false,
                     NNModule.batchNorm3d b0,
                     act,
                     NNModule.maxPool3d 3 2 1]
                  blocks := firstLayer :: restLayers }

/-- Function `resnet18(in_channels, block=...)`: a `ResNetEncoder` with
`depths=[2, 2, 2, 2]` and the encoder's defaults
`blocks_sizes=[64, 128, 256, 512]`, `activation='ReLU'`. -/
def resnet18 (in_channels : Nat) (block : BlockClass) : Option ResNetEncoderData :=
  ResNetEncoder.make in_channels [64, 128, 256, 512] [2, 2, 2, 2] "ReLU" block

/-- Function `resnet34(in_channels, block=...)`: a `ResNetEncoder` with
`depths=[3, 4, 6, 3]` and the encoder's defaults. -/
def resnet34 (in_channels : Nat) (block : BlockClass) : Option ResNetEncoderData :=
  ResNetEncoder.make in_channels [64, 128, 256, 512] [3, 4, 6, 3] "ReLU" block

/-- The runtime view of a `ResidualBlock` instance used by the inherited
`forward` method: the submodules it calls, as functions on an abstract
tensor type, and the (dynamically dispatched) `should_apply_shortcut`
property. -/
structure ResidualBlockFns (T : Type) : Type where
  shouldApplyShortcut : Bool
  shortcut : T → T
  blocks : T → T
  activate : T → T

/-- Method `ResidualBlock.forward`, line by line: `residual = x`; if
`self.should_apply_shortcut` then `residual = self.shortcut(x)`;
`x = self.blocks(x)`; `x += residual`; `x = self.activate(x)`; return. -/
def ResidualBlock.forward {T : Type} [Add T] (b : ResidualBlockFns T) (x : T) : T :=
  let residual := x
  let residual := if b.shouldApplyShortcut then b.shortcut x else residual
  let x1 := b.blocks x
  let x2 := x1 + residual
  b.activate x2

/-- The inherited `ResidualBlock.forward` as executed on a constructed
`ResNetResidualBlock` instance, whose `shortcut` may be `None` (calling it
would raise `TypeError`, modelled by `none`) and whose
`should_apply_shortcut` is the overriding property.  Leaf modules are run
through the abstract framework interpretation `interp`. -/
def ResNetBlockData.forward {T : Type} [Add T] (interp : NNModule → T → T)
    (b : ResNetBlockData) (x : T) : Option T :=
  match
    (if b.should_apply_shortcut then
      match b.shortcut with
      | some sc => some (interp sc x)
      | none => none
    else some x) with
  | none => none
  | some residual =>
    let x1 := interp b.blocks x
    let x2 := x1 + residual
    some (interp b.activate x2)

/-- Method `ResNetLayer.forward` computes `self.blocks(x)`, i.e. the `Sequential` of the
layer's residual blocks applied in order. -/
def ResNetLayer.forward {T : Type} [Add T] (interp : NNModule → T → T)
    (layer : List ResNetBlockData) (x : T) : Option T :=
  layer.foldlM (fun acc b => b.forward interp acc) x

/-- Method `ResNetEncoder.forward` computes `x = self.gate(x)`, then
`for block in self.blocks: x = block(x)`. -/
def ResNetEncoderData.forward {T : Type} [Add T] (interp : NNModule → T → T)
    (e : ResNetEncoderData) (x : T) : Option T :=
  let x0 := interp e.gate x
  e.blocks.foldlM (fun acc layer => ResNetLayer.forward interp layer acc) x0

/-- Output spatial size of one convolution dimension as the framework
computes it: `floor((n + 2 * padding - kernel_size) / stride) + 1`.
This models the torch shape rule, not repository code; it is used only to
state the size-preservation consequence of `Conv3dAuto`'s padding. -/
def convOutputDim (n kernel_size stride padding : Nat) : Nat :=
  (n + 2 * padding - kernel_size) / stride + 1

/-- Input channel count of a constructed `ResNetLayer`: the `in_channels`
attribute of its first residual block. -/
def layerInChannels (l : List ResNetBlockData) : Option Nat :=
  l.head?.map ResNetBlockData.in_channels

/-- Output channel count of a constructed `ResNetLayer`: the `out_channels`
attribute of its last residual block. -/
def layerOutChannels (l : List ResNetBlockData) : Option Nat :=
  l.getLast?.map ResNetBlockData.out_channels

/-- Spec-side description of `ResNetEncoder.forward`'s loop: apply each
layer of the list in order, threading the value left to right, with no
other computation. -/
def layersInOrder {T : Type} [Add T] (interp : NNModule → T → T) :
    List (List ResNetBlockData) → T → Option T
  | [], x => some x
  | l :: ls, x => (ResNetLayer.forward interp l x).bind (layersInOrder interp ls)

/-- A block class whose constructor records its arguments in the instance
the way `ResNetResidualBlock.__init__` does: `in_channels`, `out_channels`,
`downsampling` are stored as given, `expansion` is the class attribute, and
`shortcut` is the one `ResNetResidualBlock.__init__` builds.  Both
`ResNetBasicBlock` and `ResNetBottleNeckBlock` satisfy this. -/
def BlockClass.StoresArgs (bc : BlockClass) : Prop :=
  ∀ i o d a b, bc.make i o d a = some b →
    b.in_channels = i ∧ b.out_channels = o ∧ b.downsampling = d ∧
    b.expansion = bc.expansion ∧
    b.shortcut = ResNetResidualBlock.mkShortcut i (o * bc.expansion) d

theorem optionMapList_length {α β : Type} (f : α → Option β) :
    ∀ (xs : List α) (ys : List β), optionMapList f xs = some ys → ys.length = xs.length := by
  intro xs
  induction xs with
  | nil =>
    intro ys h
    unfold optionMapList at h
    injection h with h
    subst h
    rfl
  | cons x xs ih =>
    intro ys h
    unfold optionMapList at h
    rcases hx : f x with _ | y <;> rw [hx] at h
    · simp at h
    · rcases hxs : optionMapList f xs with _ | ys' <;> rw [hxs] at h
      · simp at h
      · injection h with h
        subst h
        simp [ih ys' hxs]

theorem optionMapList_mem {α β : Type} (f : α → Option β) :
    ∀ (xs : List α) (ys : List β), optionMapList f xs = some ys →
      ∀ y ∈ ys, ∃ x ∈ xs, f x = some y := by
  intro xs
  induction xs with
  | nil =>
    intro ys h
    unfold optionMapList at h
    injection h with h
    subst h
    intro y hy
    exact absurd hy (List.not_mem_nil y)
  | cons x xs ih =>
    intro ys h
    unfold optionMapList at h
    rcases hx : f x with _ | y <;> rw [hx] at h
    · simp at h
    · rcases hxs : optionMapList f xs with _ | ys' <;> rw [hxs] at h
      · simp at h
      · injection h with h
        subst h
        intro z hz
        rcases List.mem_cons.mp hz with hz | hz
        · exact ⟨x, List.mem_cons_self x xs, by rw [hx, hz]⟩
        · rcases ih ys' hxs z hz with ⟨x', hx', hfx'⟩
          exact ⟨x', List.mem_cons_of_mem x hx', hfx'⟩

theorem optionMapList_getElem {α β : Type} (f : α → Option β) :
    ∀ (xs : List α) (ys : List β), optionMapList f xs = some ys →
      ∀ j : Nat, xs[j]?.bind f = ys[j]? := by
  intro xs
  induction xs with
  | nil =>
    intro ys h j
    unfold optionMapList at h
    injection h with h
    subst h
    simp
  | cons x xs ih =>
    intro ys h j
    unfold optionMapList at h
    rcases hx : f x with _ | y <;> rw [hx] at h
    · simp at h
    · rcases hxs : optionMapList f xs with _ | ys' <;> rw [hxs] at h
      · simp at h
      · injection h with h
        subst h
        cases j with
        | zero => simp [hx]
        | succ j => simpa using ih ys' hxs j

theorem zip_getElem {α β : Type} :
    ∀ (as : List α) (bs : List β) (j : Nat),
      (List.zip as bs)[j]? = as[j]?.bind (fun a => bs[j]?.map (fun b => (a, b))) := by
  intro as
  induction as with
  | nil => intro bs j; simp
  | cons a as ih =>
    intro bs j
    cases bs with
    | nil => simp
    | cons b bs =>
      cases j with
      | zero => simp [List.zip]
      | succ j => simpa [List.zip] using ih bs j

theorem resNetBasicBlock_stores_args : BlockClass.StoresArgs ResNetBasicBlock := by
  intro i o d a b h
  simp only [ResNetBasicBlock] at h
  unfold ResNetBasicBlock.make at h
  rcases han : activation_func a with _ | act <;> rw [han] at h
  · simp at h
  · injection h with h
    subst h
    exact ⟨rfl, rfl, rfl, rfl, rfl⟩

theorem resNetBottleNeckBlock_stores_args : BlockClass.StoresArgs ResNetBottleNeckBlock := by
  intro i o d a b h
  simp only [ResNetBottleNeckBlock] at h
  unfold ResNetBottleNeckBlock.make at h
  rcases han : activation_func a with _ | act <;> rw [han] at h
  · simp at h
  · injection h with h
    subst h
    exact ⟨rfl, rfl, rfl, rfl, rfl⟩

/-- C1: `ResidualBlock.forward` computes the residual composition: the
residual is `shortcut(x)` when `should_apply_shortcut` holds and `x`
itself otherwise; the main `blocks` are applied to `x`, the residual is
added to that result, the activation is applied, and the value returned. -/
theorem residualBlock_forward_composition {T : Type} [Add T]
    (b : ResidualBlockFns T) (x : T) :
    ResidualBlock.forward b x =
      b.activate (b.blocks x + (if b.shouldApplyShortcut then b.shortcut x else x)) := rfl

/-- C2: `resnet18` and `resnet34` build `ResNetEncoder`s that differ only
in `depths` (`[2, 2, 2, 2]` vs `[3, 4, 6, 3]`), forwarding `in_channels`
and `block` unchanged and leaving the encoder defaults
(`blocks_sizes=[64, 128, 256, 512]`, `activation='ReLU'`) in place. -/
theorem resnet18_resnet34_depths (in_channels : Nat) (block : BlockClass) :
    resnet18 in_channels block =
        ResNetEncoder.make in_channels [64, 128, 256, 512] [2, 2, 2, 2] "ReLU" block ∧
      resnet34 in_channels block =
        ResNetEncoder.make in_channels [64, 128, 256, 512] [3, 4, 6, 3] "ReLU" block :=
  ⟨rfl, rfl⟩

/-- C8: `Conv3dAuto` discards the `padding` argument and sets the padding
to `kernel_size[i] // 2` per spatial dimension; consequently, for an odd
kernel size, stride 1 and a nonempty spatial extent, the convolution
preserves the spatial extent. -/
theorem conv3dAuto_padding (i o k1 k2 k3 s p1 p2 p3 : Nat) (bias : Bool) :
    Conv3dAuto i o (k1, k2, k3) s (p1, p2, p3) bias =
        NNModule.conv3d i o (k1, k2, k3) s (k1 / 2, k2 / 2, k3 / 2) bias ∧
      ∀ k n : Nat, Odd k → 1 ≤ n → convOutputDim n k 1 (k / 2) = n := by
  refine ⟨rfl, ?_⟩
  rintro k n ⟨m, rfl⟩ hn
  unfold convOutputDim
  omega

theorem conv3dAuto_padding_witness :
    Conv3dAuto 1 64 (7, 7, 7) 2 (9, 9, 9) true =
        NNModule.conv3d 1 64 (7, 7, 7) 2 (3, 3, 3) true ∧
      convOutputDim 5 3 1 1 = 5 :=
  ⟨(conv3dAuto_padding 1 64 7 7 7 2 9 9 9 true).1,
   (conv3dAuto_padding 1 64 7 7 7 2 9 9 9 true).2 3 5 ⟨1, by decide⟩ (by decide)⟩

/-- C9: `activation_func` succeeds exactly on the four names `"ReLU"`,
`"leaky_ReLU"`, `"SeLU"` and `"none"` (mapping `"none"` to `nn.Identity`),
and raises `KeyError` (modelled by `none`) on every other string, so
constructing any block or encoder with an unrecognized activation name
fails. -/
theorem activationFunc_domain :
    activation_func "ReLU" = some NNModule.relu ∧
    activation_func "leaky_ReLU" = some NNModule.leakyRelu ∧
    activation_func "SeLU" = some NNModule.selu ∧
    activation_func "none" = some NNModule.identity ∧
    ∀ s : String, s ≠ "ReLU" → s ≠ "leaky_ReLU" → s ≠ "SeLU" → s ≠ "none" →
      activation_func s = none ∧
      (∀ i o d : Nat, ResNetBasicBlock.make i o d s = none ∧
        ResNetBottleNeckBlock.make i o d s = none) ∧
      ∀ (i : Nat) (bs depths : List Nat) (bc : BlockClass),
        ResNetEncoder.make i bs depths s bc = none := by
  refine ⟨rfl, rfl, rfl, rfl, ?_⟩
  intro s h1 h2 h3 h4
  have hnone : activation_func s = none := by
    simp [activation_func, List.lookup, beq_eq_false_iff_ne.mpr h1,
      beq_eq_false_iff_ne.mpr h2, beq_eq_false_iff_ne.mpr h3, beq_eq_false_iff_ne.mpr h4]
  refine ⟨hnone, fun i o d => ⟨?_, ?_⟩, fun i bs depths bc => ?_⟩
  · unfold ResNetBasicBlock.make
    rw [hnone]
  · unfold ResNetBottleNeckBlock.make
    rw [hnone]
  · unfold ResNetEncoder.make
    rw [hnone]
    rfl

theorem activationFunc_domain_witness :
    activation_func "sigmoid" = none ∧
      ResNetBasicBlock.make 4 8 1 "sigmoid" = none ∧
      ResNetEncoder.make 1 [64] [2] "sigmoid" ResNetBasicBlock = none :=
  ⟨(activationFunc_domain.2.2.2.2 "sigmoid" (by decide) (by decide) (by decide) (by decide)).1,
   ((activationFunc_domain.2.2.2.2 "sigmoid" (by decide) (by decide) (by decide)
      (by decide)).2.1 4 8 1).1,
   (activationFunc_domain.2.2.2.2 "sigmoid" (by decide) (by decide) (by decide)
      (by decide)).2.2 1 [64] [2] ResNetBasicBlock⟩

/-- C5: `ResNetBasicBlock` has `expansion = 1` and its main path is two
conv/batch-norm stages with one activation in between: a 3x3x3 bias-free
convolution with stride `downsampling` from `in_channels` to
`out_channels`, the activation, then a 3x3x3 bias-free stride-1
convolution from `out_channels` to `expanded_channels = out_channels`
(`Conv3dAuto` gives both convolutions padding 1). -/
theorem resNetBasicBlock_structure (i o d : Nat) (a : String) (b : ResNetBlockData)
    (h : ResNetBasicBlock.make i o d a = some b) :
    b.expansion = 1 ∧ b.expanded_channels = o ∧
      ∃ act, activation_func a = some act ∧
        b.blocks = NNModule.sequential
          [NNModule.sequential
            [NNModule.conv3d i o (3, 3, 3) d (1, 1, 1) false, NNModule.batchNorm3d o],
           act,
           NNModule.sequential
            [NNModule.conv3d o o (3, 3, 3) 1 (1, 1, 1) false, NNModule.batchNorm3d o]] := by
  unfold ResNetBasicBlock.make at h
  rcases han : activation_func a with _ | act <;> rw [han] at h
  · simp at h
  · injection h with h
    subst h
    refine ⟨rfl, by simp [ResNetBlockData.expanded_channels], act, rfl, ?_⟩
    simp [conv_bn, conv3x3, Conv3dAuto]

theorem resNetBasicBlock_structure_witness :
    (ResNetBasicBlock.make 4 8 2 "ReLU").map ResNetBlockData.blocks =
      some (NNModule.sequential
        [NNModule.sequential
          [NNModule.conv3d 4 8 (3, 3, 3) 2 (1, 1, 1) false, NNModule.batchNorm3d 8],
         NNModule.relu,
         NNModule.sequential
          [NNModule.conv3d 8 8 (3, 3, 3) 1 (1, 1, 1) false, NNModule.batchNorm3d 8]]) := by
  rcases hB : ResNetBasicBlock.make 4 8 2 "ReLU" with _ | b
  · exact absurd hB (Option.isSome_iff_ne_none.mp (by rfl))
  · have hs := resNetBasicBlock_structure 4 8 2 "ReLU" b hB
    rcases hs.2.2 with ⟨act, hact, hblocks⟩
    have : act = NNModule.relu := by
      have : some act = some NNModule.relu := by rw [← hact]; rfl
      injection this
    subst this
    simp [hblocks]

/-- C6: `ResNetBottleNeckBlock` has `expansion = 4` and its main path is
three conv/batch-norm stages with activations between them: a bias-free
1x1x1 convolution from `in_channels` to `out_channels`, a bias-free 3x3x3
convolution from `out_channels` to `out_channels` carrying the block's
`downsampling` stride (the only strided stage), and a bias-free 1x1x1
stride-1 convolution from `out_channels` to
`expanded_channels = 4 * out_channels`. -/
theorem resNetBottleNeckBlock_structure (i o d : Nat) (a : String) (b : ResNetBlockData)
    (h : ResNetBottleNeckBlock.make i o d a = some b) :
    b.expansion = 4 ∧ b.expanded_channels = o * 4 ∧
      ∃ act, activation_func a = some act ∧
        b.blocks = NNModule.sequential
          [NNModule.sequential
            [NNModule.conv3d i o (1, 1, 1) 1 (0, 0, 0) false, NNModule.batchNorm3d o],
           act,
           NNModule.sequential
            [NNModule.conv3d o o (3, 3, 3) d (1, 1, 1) false, NNModule.batchNorm3d o],
           act,
           NNModule.sequential
            [NNModule.conv3d o (o * 4) (1, 1, 1) 1 (0, 0, 0) false,
             NNModule.batchNorm3d (o * 4)]] := by
  unfold ResNetBottleNeckBlock.make at h
  rcases han : activation_func a with _ | act <;> rw [han] at h
  · simp at h
  · injection h with h
    subst h
    refine ⟨rfl, rfl, act, rfl, ?_⟩
    simp [conv_bn, conv3x3, Conv3dAuto]

theorem resNetBottleNeckBlock_structure_witness :
    (ResNetBottleNeckBlock.make 4 8 2 "none").map ResNetBlockData.blocks =
      some (NNModule.sequential
        [NNModule.sequential
          [NNModule.conv3d 4 8 (1, 1, 1) 1 (0, 0, 0) false, NNModule.batchNorm3d 8],
         NNModule.identity,
         NNModule.sequential
          [NNModule.conv3d 8 8 (3, 3, 3) 2 (1, 1, 1) false, NNModule.batchNorm3d 8],
         NNModule.identity,
         NNModule.sequential
          [NNModule.conv3d 8 32 (1, 1, 1) 1 (0, 0, 0) false, NNModule.batchNorm3d 32]]) := by
  rcases hB : ResNetBottleNeckBlock.make 4 8 2 "none" with _ | b
  · exact absurd hB (Option.isSome_iff_ne_none.mp (by rfl))
  · have hs := resNetBottleNeckBlock_structure 4 8 2 "none" b hB
    rcases hs.2.2 with ⟨act, hact, hblocks⟩
    have : act = NNModule.identity := by
      have : some act = some NNModule.identity := by rw [← hact]; rfl
      injection this
    subst this
    simp [hblocks]

/-- C4: the `ResNetEncoder` gate is the sequential composition, in order,
of a 7x7x7 stride-2 padding-3 bias-free convolution from `in_channels` to
`blocks_sizes[0]` channels, a batch normalization over `blocks_sizes[0]`
channels, the selected activation, and a 3/2/1 max pooling. -/
theorem resNetEncoder_gate_structure (i : Nat) (bs depths : List Nat) (a : String)
    (bc : BlockClass) (e : ResNetEncoderData) (act : NNModule) (b0 : Nat)
    (hact : activation_func a = some act)
    (hb0 : bs.head? = some b0)
    (h : ResNetEncoder.make i bs depths a bc = some e) :
    e.gate = NNModule.sequential
      [NNModule.conv3d i b0 (7, 7, 7) 2 (3, 3, 3) false,
       NNModule.batchNorm3d b0,
       act,
       NNModule.maxPool3d 3 2 1] := by
  unfold ResNetEncoder.make at h
  simp only [hact, hb0, Option.some_bind] at h
  rcases hd0 : depths.head? with _ | d0 <;>
    simp only [hd0, Option.some_bind, Option.none_bind] at h
  · exact Option.noConfusion h
  rcases hL : ResNetLayer.make b0 b0 bc d0 a with _ | L <;>
    simp only [hL, Option.some_bind, Option.none_bind] at h
  · exact Option.noConfusion h
  rcases hR : optionMapList (fun p => ResNetLayer.make (p.1.1 * bc.expansion) p.1.2 bc p.2 a)
      (List.zip (List.zip bs bs.tail) depths.tail) with _ | R <;>
    simp only [hR, Option.some_bind, Option.none_bind] at h
  · exact Option.noConfusion h
  injection h with h
  subst h
  rfl

theorem resNetEncoder_gate_structure_witness :
    (ResNetEncoder.make 0 [1] [1] "ReLU" ResNetBasicBlock).map ResNetEncoderData.gate =
      some (NNModule.sequential
        [NNModule.conv3d 0 1 (7, 7, 7) 2 (3, 3, 3) false,
         NNModule.batchNorm3d 1, NNModule.relu, NNModule.maxPool3d 3 2 1]) := by
  rcases hE : ResNetEncoder.make 0 [1] [1] "ReLU" ResNetBasicBlock with _ | e
  · exact absurd hE (Option.isSome_iff_ne_none.mp (by rfl))
  · simp [resNetEncoder_gate_structure 0 [1] [1] "ReLU" ResNetBasicBlock e
      NNModule.relu 1 rfl rfl hE]

/-- C7: `ResNetEncoder.forward` is the pure sequential composition of its
parts: it applies the gate to the input and then each `ResNetLayer` of
`self.blocks` in list order, with no other computation. -/
theorem resNetEncoder_forward_composition {T : Type} [Add T] (interp : NNModule → T → T)
    (e : ResNetEncoderData) (x : T) :
    e.forward interp x = layersInOrder interp e.blocks (interp e.gate x) := by
  simp only [ResNetEncoderData.forward]
  generalize interp e.gate x = y
  generalize e.blocks = ls
  induction ls generalizing y with
  | nil => rfl
  | cons l ls ih =>
    cases hz : ResNetLayer.forward interp l y with
    | none => simp [layersInOrder, List.foldlM, hz]
    | some z => simp [layersInOrder, List.foldlM, hz, ih z]

theorem resNetLayer_make_spec (i o n : Nat) (bc : BlockClass) (a : String)
    (l : List ResNetBlockData) (hbc : BlockClass.StoresArgs bc)
    (h : ResNetLayer.make i o bc n a = some l) :
    layerInChannels l = some i ∧
    (∃ lb, l.getLast? = some lb ∧ lb.out_channels = o ∧ lb.expansion = bc.expansion) ∧
    (∀ b ∈ l, ∃ i2 d2, bc.make i2 o d2 a = some b) := by
  unfold ResNetLayer.make at h
  rcases hf : bc.make i o (if i ≠ o then 2 else 1) a with _ | first <;>
    simp only [hf, Option.some_bind, Option.none_bind] at h
  · exact Option.noConfusion h
  rcases hr : optionMapList (fun _ => bc.make (o * bc.expansion) o 1 a) (List.range (n - 1))
      with _ | rest <;> simp only [hr, Option.some_bind, Option.none_bind] at h
  · exact Option.noConfusion h
  injection h with h
  subst h
  obtain ⟨hfi, hfo, hfd, hfe, hfs⟩ := hbc _ _ _ _ _ hf
  have hmem : ∀ b ∈ first :: rest, ∃ i2 d2, bc.make i2 o d2 a = some b := by
    intro b hb
    rcases List.mem_cons.mp hb with hb | hb
    · subst hb
      exact ⟨i, if i ≠ o then 2 else 1, hf⟩
    · rcases optionMapList_mem _ _ _ hr b hb with ⟨x, hx, hfx⟩
      exact ⟨o * bc.expansion, 1, hfx⟩
  refine ⟨?_, ?_, hmem⟩
  · simp [layerInChannels, hfi]
  · have hne : first :: rest ≠ [] := by simp
    rcases hmem _ (List.getLast_mem hne) with ⟨i2, d2, hmk⟩
    obtain ⟨_, ho2, _, he2, _⟩ := hbc _ _ _ _ _ hmk
    exact ⟨_, List.getLast?_eq_getLast _ hne, ho2, he2⟩

theorem blockClass_shortcut_none_iff (bc : BlockClass) (hbc : BlockClass.StoresArgs bc)
    (i o d : Nat) (a : String) (b : ResNetBlockData) (h : bc.make i o d a = some b) :
    b.shortcut = none ↔ b.in_channels = b.expanded_channels := by
  obtain ⟨hi, ho, hd, he, hs⟩ := hbc _ _ _ _ _ h
  rw [hs, ResNetBlockData.expanded_channels, hi, ho, he, ResNetResidualBlock.mkShortcut]
  split
  · simp
    omega
  · simp
    omega

/-- C3: for every `in_channels`, `out_channels` and `n ≥ 1`, `ResNetLayer`
builds exactly `n` blocks in sequence: the first receives
`downsampling = 2` iff `in_channels ≠ out_channels` (else 1), and every
subsequent block receives `downsampling = 1` and input channel count
`out_channels * block.expansion`. -/
theorem resNetLayer_block_arguments (i o n : Nat) (bc : BlockClass) (a : String)
    (l : List ResNetBlockData) (hbc : BlockClass.StoresArgs bc) (hn : 1 ≤ n)
    (h : ResNetLayer.make i o bc n a = some l) :
    l.length = n ∧
    (∃ b0, l.head? = some b0 ∧ b0.in_channels = i ∧ b0.out_channels = o ∧
      b0.downsampling = (if i ≠ o then 2 else 1)) ∧
    ∀ b ∈ l.tail, b.downsampling = 1 ∧ b.in_channels = o * bc.expansion ∧
      b.out_channels = o := by
  unfold ResNetLayer.make at h
  rcases hf : bc.make i o (if i ≠ o then 2 else 1) a with _ | first <;>
    simp only [hf, Option.some_bind, Option.none_bind] at h
  · exact Option.noConfusion h
  rcases hr : optionMapList (fun _ => bc.make (o * bc.expansion) o 1 a) (List.range (n - 1))
      with _ | rest <;> simp only [hr, Option.some_bind, Option.none_bind] at h
  · exact Option.noConfusion h
  injection h with h
  subst h
  obtain ⟨hfi, hfo, hfd, hfe, hfs⟩ := hbc _ _ _ _ _ hf
  refine ⟨?_, ⟨first, rfl, hfi, hfo, hfd⟩, ?_⟩
  · have hlen := optionMapList_length _ _ _ hr
    simp [List.length_range] at hlen
    simp [hlen]
    omega
  · intro b hb
    rcases optionMapList_mem _ _ _ hr b hb with ⟨x, hx, hfx⟩
    obtain ⟨hbi, hbo, hbd, hbe, hbs⟩ := hbc _ _ _ _ _ hfx
    exact ⟨hbd, hbi, hbo⟩

theorem resNetLayer_block_arguments_witness :
    (ResNetLayer.make 1 2 ResNetBasicBlock 3 "ReLU").map List.length = some 3 := by
  rcases hL : ResNetLayer.make 1 2 ResNetBasicBlock 3 "ReLU" with _ | l
  · exact absurd hL (Option.isSome_iff_ne_none.mp (by rfl))
  · simp [(resNetLayer_block_arguments 1 2 3 ResNetBasicBlock "ReLU" l
      resNetBasicBlock_stores_args (by decide) hL).1]

theorem exists_getElem_eq {α : Type} (l : List α) (j : Nat) (h : j < l.length) :
    ∃ x, l[j]? = some x := by
  rw [List.getElem?_eq_getElem h]
  exact ⟨_, rfl⟩

/-- C10: channel counts chain consistently through the whole encoder, for
any block class that records its constructor arguments (both variants do):
with `blocks_sizes` and `depths` of equal length the encoder has one
`ResNetLayer` per entry of `blocks_sizes`; every later layer's input
channel count equals the previous layer's output channel count times
`block.expansion`; the final output channel count (the last block's
`expanded_channels`) is `blocks_sizes[-1] * block.expansion`; a residual
block's `shortcut` is `None` exactly when `in_channels` equals
`expanded_channels`; and `forward` never invokes the shortcut in that
case. -/
theorem resNetEncoder_channel_chaining (i : Nat) (bs depths : List Nat) (a : String)
    (bc : BlockClass) (e : ResNetEncoderData)
    (hbc : BlockClass.StoresArgs bc)
    (hlen : bs.length = depths.length)
    (h : ResNetEncoder.make i bs depths a bc = some e) :
    e.blocks.length = bs.length ∧
    (∀ j : Nat, j + 1 < e.blocks.length →
      e.blocks[j + 1]?.bind layerInChannels =
        (e.blocks[j]?.bind layerOutChannels).map (fun c => c * bc.expansion)) ∧
    ((e.blocks.getLast?.bind List.getLast?).map ResNetBlockData.expanded_channels =
      bs.getLast?.map (fun c => c * bc.expansion)) ∧
    (∀ layer ∈ e.blocks, ∀ b ∈ layer,
      (b.shortcut = none ↔ b.in_channels = b.expanded_channels)) ∧
    ∀ (T : Type) [Add T] (interp : NNModule → T → T) (b : ResNetBlockData) (x : T),
      b.in_channels = b.expanded_channels →
      b.forward interp x = some (interp b.activate (interp b.blocks x + x)) := by
  unfold ResNetEncoder.make at h
  rcases hact : activation_func a with _ | act <;>
    simp only [hact, Option.some_bind, Option.none_bind] at h
  · exact Option.noConfusion h
  rcases bs with _ | ⟨b0, bs'⟩
  · simp only [List.head?_nil, Option.none_bind] at h
    exact Option.noConfusion h
  rcases depths with _ | ⟨d0, depths'⟩
  · simp only [List.head?_cons, Option.some_bind, List.head?_nil, Option.none_bind] at h
    exact Option.noConfusion h
  simp only [List.head?_cons, Option.some_bind, List.tail_cons] at h
  rcases hL0 : ResNetLayer.make b0 b0 bc d0 a with _ | L0 <;>
    simp only [hL0, Option.some_bind, Option.none_bind] at h
  · exact Option.noConfusion h
  rcases hR : optionMapList
      (fun p => ResNetLayer.make (p.1.1 * bc.expansion) p.1.2 bc p.2 a)
      (((b0 :: bs').zip bs').zip depths') with _ | R <;>
    simp only [hR, Option.some_bind, Option.none_bind] at h
  · exact Option.noConfusion h
  injection h with h
  subst h
  have hdlen : depths'.length = bs'.length := by
    simpa using hlen.symm
  have hRlen : R.length = bs'.length := by
    have hz := optionMapList_length _ _ _ hR
    rw [List.length_zip, List.length_zip, List.length_cons, hdlen] at hz
    omega
  obtain ⟨hin0, hlast0, hmem0⟩ := resNetLayer_make_spec _ _ _ _ _ _ hbc hL0
  have key : ∀ j, j < bs'.length → ∃ Lj cout,
      R[j]? = some Lj ∧ bs'[j]? = some cout ∧
      layerInChannels Lj = (b0 :: bs')[j]?.map (fun c => c * bc.expansion) ∧
      layerOutChannels Lj = some cout ∧
      Lj.getLast?.map ResNetBlockData.expanded_channels = some (cout * bc.expansion) ∧
      ∀ b ∈ Lj, ∃ i2 d2, bc.make i2 cout d2 a = some b := by
    intro j hj
    obtain ⟨fj, hfull⟩ := exists_getElem_eq (b0 :: bs') j (by simp; omega)
    obtain ⟨cout, hb2⟩ := exists_getElem_eq bs' j hj
    obtain ⟨dj, hd2⟩ := exists_getElem_eq depths' j (by omega)
    have hp : (((b0 :: bs').zip bs').zip depths')[j]? = some ((fj, cout), dj) := by
      rw [zip_getElem, zip_getElem, hfull, hb2, hd2]
      rfl
    have hmap := optionMapList_getElem _ _ _ hR j
    rw [hp] at hmap
    simp only [Option.some_bind] at hmap
    obtain ⟨Lj, hRj⟩ := exists_getElem_eq R j (by omega)
    rw [hRj] at hmap
    obtain ⟨hin, hlast, hmem⟩ := resNetLayer_make_spec _ _ _ _ _ _ hbc hmap
    rcases hlast with ⟨lb, hlb, hlbo, hlbe⟩
    refine ⟨Lj, cout, hRj, hb2, ?_, ?_, ?_, hmem⟩
    · rw [hfull]
      simpa using hin
    · simp [layerOutChannels, hlb, hlbo]
    · simp [hlb, ResNetBlockData.expanded_channels, hlbo, hlbe]
  refine ⟨?_, ?_, ?_, ?_, ?_⟩
  · show (L0 :: R).length = (b0 :: bs').length
    simp [hRlen]
  · intro j hj
    have hj2 : j + 1 < (L0 :: R).length := hj
    have hj' : j < bs'.length := by
      simp only [List.length_cons] at hj2
      omega
    cases j with
    | zero =>
      rcases key 0 hj' with ⟨Lj, cout, hRj, hb2, hin, hout, hexp, hmem⟩
      show (L0 :: R)[1]?.bind layerInChannels =
        ((L0 :: R)[0]?.bind layerOutChannels).map (fun c => c * bc.expansion)
      rcases hlast0 with ⟨lb0, hlb0, hlb0o, hlb0e⟩
      rw [List.getElem?_cons_succ, hRj]
      simp only [Option.some_bind, List.getElem?_cons_zero]
      rw [hin]
      simp [layerOutChannels, hlb0, hlb0o]
    | succ k =>
      have hk1 : k + 1 < bs'.length := hj'
      have hk : k < bs'.length := by omega
      rcases key (k + 1) hk1 with ⟨Lj, cout, hRj, hb2, hin, hout, hexp, hmem⟩
      rcases key k hk with ⟨Lk, coutk, hRk, hb2k, hink, houtk, hexpk, hmemk⟩
      show (L0 :: R)[k + 2]?.bind layerInChannels =
        ((L0 :: R)[k + 1]?.bind layerOutChannels).map (fun c => c * bc.expansion)
      rw [List.getElem?_cons_succ, List.getElem?_cons_succ, hRj, hRk]
      simp only [Option.some_bind]
      rw [hin, houtk]
      simp only [List.getElem?_cons_succ, hb2k, Option.map_some']
  · show ((L0 :: R).getLast?.bind List.getLast?).map ResNetBlockData.expanded_channels =
      (b0 :: bs').getLast?.map (fun c => c * bc.expansion)
    rcases Nat.eq_zero_or_pos bs'.length with hm | hm
    · have hbs2 : bs' = [] := List.eq_nil_of_length_eq_zero hm
      subst hbs2
      have hR0 : R = [] := List.eq_nil_of_length_eq_zero (by omega)
      subst hR0
      rcases hlast0 with ⟨lb, hlb, hlbo, hlbe⟩
      simp [hlb, ResNetBlockData.expanded_channels, hlbo, hlbe]
    · rcases key (bs'.length - 1) (by omega) with ⟨Lj, cout, hRj, hb2, hin, hout, hexp, hmem⟩
      have h1 : (L0 :: R).getLast? = some Lj := by
        rw [List.getLast?_eq_getElem?]
        have hidx : (L0 :: R).length - 1 = (bs'.length - 1) + 1 := by
          simp [hRlen]
          omega
        rw [hidx, List.getElem?_cons_succ, hRj]
      have h2 : (b0 :: bs').getLast? = some cout := by
        rw [List.getLast?_eq_getElem?]
        have hidx : (b0 :: bs').length - 1 = (bs'.length - 1) + 1 := by
          simp
          omega
        rw [hidx, List.getElem?_cons_succ, hb2]
      rw [h1, h2]
      simpa using hexp
  · intro layer hlayer b hb
    rcases List.mem_cons.mp hlayer with hl | hl
    · subst hl
      rcases hmem0 b hb with ⟨i2, d2, hmk⟩
      exact blockClass_shortcut_none_iff bc hbc _ _ _ _ _ hmk
    · rcases optionMapList_mem _ _ _ hR layer hl with ⟨p, hp, hmk⟩
      obtain ⟨_, _, hmem2⟩ := resNetLayer_make_spec _ _ _ _ _ _ hbc hmk
      rcases hmem2 b hb with ⟨i2, d2, hmk2⟩
      exact blockClass_shortcut_none_iff bc hbc _ _ _ _ _ hmk2
  · intro T instT interp b x heq
    simp [ResNetBlockData.forward, ResNetBlockData.should_apply_shortcut, heq]

theorem resNetEncoder_channel_chaining_witness :
    (ResNetEncoder.make 0 [1, 2] [1, 1] "ReLU" ResNetBasicBlock).map
      (fun e => e.blocks.length) = some 2 := by
  rcases hE : ResNetEncoder.make 0 [1, 2] [1, 1] "ReLU" ResNetBasicBlock with _ | e
  · exact absurd hE (Option.isSome_iff_ne_none.mp (by rfl))
  · simp [(resNetEncoder_channel_chaining 0 [1, 2] [1, 1] "ReLU" ResNetBasicBlock e
      resNetBasicBlock_stores_args (by decide) hE).1]
